import Mathlib

/-
Verification of the structural pattern-matching engine of gogrep
(src/match.go) against its specification.

The development is a shallow embedding of match.go.  The Go AST node kinds
exercised by the claims are embedded as the inductive `Node`; the matcher
functions (`node`, `nodes`, `topNode`, `walkWithLists`, `cmdRange`,
`cmdFilter`, `resolveType`, `findScope`, ...) are translated function by
function.  Go's mutable matcher state `m.values` is threaded explicitly;
Go panics are embedded as the `.error` branch of `Except`; the unbounded
`for` loop of `matcher.nodes` is embedded with an explicit fuel parameter
(running out of fuel is the distinguished error `.fuel`, which never
occurs for adequate fuel).

The node kinds of the source's type switch that none of the claims touch
(File, CompositeLit, FuncLit, MapType, StructType, Field, FuncType,
InterfaceType, ChanType, Ellipsis, ParenExpr, UnaryExpr, KeyValueExpr,
IndexExpr, SliceExpr, TypeAssertExpr, GenDecl, FuncDecl, ValueSpec,
DeclStmt, EmptyStmt, LabeledStmt, SendStmt, IncDecStmt, AssignStmt,
GoStmt, DeferStmt, ReturnStmt's siblings, BlockStmt, IfStmt, CaseClause,
SwitchStmt, TypeSwitchStmt, CommClause, SelectStmt, ForStmt, RangeStmt)
are omitted from the embedded subset; each follows the same
field-by-field shape as the embedded composite kinds.  None of the
embedded kinds is in the set of scope-introducing kinds, so the
`m.scope` re-seating at the top of `matcher.node` is invisible here and
`m.scope` is a constant field of the embedded matcher context.
-/

namespace Gogrep

/-- The kind tags of the list node types of match.go (`exprList`,
`stmtList`; `identList` and `specList` are only used by node kinds
outside the embedded subset). -/
inductive LKind where
  | exprs
  | stmts
deriving DecidableEq, Repr

/-- A source span: `token.Pos` pair `(Pos(), End())`, used only for
identity and deduplication, never for matching. -/
structure Span where
  lo : Nat
  hi : Nat
deriving DecidableEq, Repr

/-- `token.Token` literal kinds of `ast.BasicLit.Kind`. -/
inductive LitKind where
  | int
  | float
  | imag
  | char
  | str
deriving DecidableEq, Repr

/-- The embedded subset of `ast.Node`.  Patterns and candidates share this
one type, exactly as both are `ast.Node` in the source.  The `list`
constructor embeds the source's extra node types `exprList`/`stmtList`
(ordered sibling lists implementing `ast.Node`).  `callExpr.ellipsis`
embeds the validity of the `ast.CallExpr.Ellipsis` position
(`pos.IsValid()`), which is all `bothValid` reads of it. -/
inductive Node where
  | ident (name : String) (sp : Span)
  | basicLit (kind : LitKind) (value : String) (sp : Span)
  | binaryExpr (op : String) (x y : Node) (sp : Span)
  | callExpr (fn : Node) (args : List Node) (ellipsis : Bool) (sp : Span)
  | selectorExpr (x sel : Node) (sp : Span)
  | starExpr (x : Node) (sp : Span)
  | arrayType (len : Option Node) (elt : Node) (sp : Span)
  | exprStmt (x : Node) (sp : Span)
  | returnStmt (results : List Node) (sp : Span)
  | list (k : LKind) (elems : List Node)
deriving Repr

/-- Placeholder node used only as the default of guarded list indexing
(the source indexes with `ns.at(i)` under a bounds check). -/
def defNode : Node := .ident "" ⟨0, 0⟩

/-- Which embedded node kinds implement Go's `ast.Expr` interface.
The list node types implement only `ast.Node`, not `ast.Expr`. -/
def isExprNode : Node → Bool
  | .ident _ _ => true
  | .basicLit _ _ _ => true
  | .binaryExpr _ _ _ _ => true
  | .callExpr _ _ _ _ => true
  | .selectorExpr _ _ _ => true
  | .starExpr _ _ => true
  | .arrayType _ _ _ => true
  | .exprStmt _ _ => false
  | .returnStmt _ _ => false
  | .list _ _ => false

mutual
/-- `Pos()` of a node.  For the list node types the source returns
`l[0].Pos()`; an empty list would fault in Go, and is never reached by
`cmdRange` on the claims' inputs; the embedding returns 0 there. -/
def Node.posOf : Node → Nat
  | .ident _ sp => sp.lo
  | .basicLit _ _ sp => sp.lo
  | .binaryExpr _ _ _ sp => sp.lo
  | .callExpr _ _ _ sp => sp.lo
  | .selectorExpr _ _ sp => sp.lo
  | .starExpr _ sp => sp.lo
  | .arrayType _ _ sp => sp.lo
  | .exprStmt _ sp => sp.lo
  | .returnStmt _ sp => sp.lo
  | .list _ es => Node.posOfHead es

/-- `Pos()` of the first element of a list node. -/
def Node.posOfHead : List Node → Nat
  | [] => 0
  | e :: _ => Node.posOf e
end

mutual
/-- `End()` of a node.  For the list node types the source returns
`l[len(l)-1].End()`. -/
def Node.endOf : Node → Nat
  | .ident _ sp => sp.hi
  | .basicLit _ _ sp => sp.hi
  | .binaryExpr _ _ _ sp => sp.hi
  | .callExpr _ _ _ sp => sp.hi
  | .selectorExpr _ _ sp => sp.hi
  | .starExpr _ sp => sp.hi
  | .arrayType _ _ sp => sp.hi
  | .exprStmt _ sp => sp.hi
  | .returnStmt _ sp => sp.hi
  | .list _ es => Node.endOfLast es

/-- `End()` of the last element of a list node. -/
def Node.endOfLast : List Node → Nat
  | [] => 0
  | [e] => Node.endOf e
  | _ :: e :: es => Node.endOfLast (e :: es)
end

/-- The `[2]token.Pos` span `(found.Pos(), found.End())` recorded by
`cmdRange` for deduplication. -/
def spanOf (n : Node) : Span := ⟨n.posOf, n.endOf⟩

/-! ### Static types and scopes (the go/types collaborator) -/

/-- Model of `types.Type` as far as `resolveType` constructs them:
named types plus `types.NewSlice`, `types.NewArray`, `types.NewPointer`. -/
inductive Ty where
  | named (name : String)
  | slice (elt : Ty)
  | array (len : Int) (elt : Ty)
  | ptr (elt : Ty)
deriving DecidableEq, Repr

mutual
/-- Model of `types.Scope`: named objects plus an optional parent scope
(`LookupParent` climbs to enclosing scopes). -/
inductive Scope where
  | mk (entries : List (String × Obj)) (parent : Option Scope)

/-- Model of `types.Object` as far as match.go reads it: every object has
a type; a `*types.PkgName` object additionally carries the scope of the
imported package (`Imported().Scope()`). -/
inductive Obj where
  | plain (ty : Ty)
  | pkgName (ty : Ty) (imported : Scope)
end

/-- `scope.LookupParent(name, token.NoPos)`: look `name` up in this scope,
then in enclosing scopes; `none` models the nil object of a failed
lookup. -/
def Scope.lookupParent : Scope → String → Option Obj
  | .mk entries parent, nm =>
    match entries.find? (fun p => p.1 == nm) with
    | some p => some p.2
    | none =>
      match parent with
      | some sc => Scope.lookupParent sc nm
      | none => none

/-- The faults of the embedded code: `.fuel` is fuel exhaustion of the
embedding (never a behaviour of the source); the rest embed the panics
(and nil dereferences) of match.go, which in Go abort the whole
operation and surface to the caller. -/
inductive Err where
  | fuel
  | nilObj
  | notPkgName
  | todoArrayLen
  | resolveTodo
  | findScopeTodo
deriving DecidableEq, Repr

/-- Value of a hexadecimal-ish digit character, as accepted by
`strconv.ParseInt`. -/
def digitVal (c : Char) : Option Nat :=
  if '0' ≤ c ∧ c ≤ '9' then some (c.toNat - '0'.toNat)
  else if 'a' ≤ c ∧ c ≤ 'f' then some (c.toNat - 'a'.toNat + 10)
  else if 'A' ≤ c ∧ c ≤ 'F' then some (c.toNat - 'A'.toNat + 10)
  else none

/-- Digit run accumulator for `parseInt0`; underscore separators (legal in
Go literals under base 0) are skipped. -/
def parseNatBase (base : Nat) : List Char → Nat → Option Nat
  | [], acc => some acc
  | c :: cs, acc =>
    if c = '_' then parseNatBase base cs acc
    else
      match digitVal c with
      | some d => if d < base then parseNatBase base cs (acc * base + d) else none
      | none => none

/-- Model of the collaborator `strconv.ParseInt(s, 0, 0)` as used by
`resolveType`: optional sign, base prefix 0x/0o/0b or leading-0 octal,
else decimal; the source discards the error, so a failed or
out-of-range parse yields the value Go returns with it (0 on syntax
error, the clamped 64-bit bound on range error). -/
def parseInt0 (s : String) : Int :=
  let chars := s.toList
  let (neg, rest) :=
    match chars with
    | '-' :: cs => (true, cs)
    | '+' :: cs => (false, cs)
    | cs => (false, cs)
  let mag : Option Nat :=
    match rest with
    | '0' :: 'x' :: cs => parseNatBase 16 cs 0
    | '0' :: 'X' :: cs => parseNatBase 16 cs 0
    | '0' :: 'o' :: cs => parseNatBase 8 cs 0
    | '0' :: 'O' :: cs => parseNatBase 8 cs 0
    | '0' :: 'b' :: cs => parseNatBase 2 cs 0
    | '0' :: 'B' :: cs => parseNatBase 2 cs 0
    | '0' :: c :: cs => parseNatBase 8 (c :: cs) 0
    | [] => none
    | cs => parseNatBase 10 cs 0
  match mag with
  | none => 0
  | some m =>
    if neg then
      if m > 2 ^ 63 then -(2 ^ 63) else -(Int.ofNat m)
    else
      if m > 2 ^ 63 - 1 then 2 ^ 63 - 1 else Int.ofNat m

/-- `findScope` of match.go: resolve the qualifier of a package-qualified
type name to the imported package's scope.  A failed lookup dereferences
a nil object and a non-package object fails the `*types.PkgName` type
assertion; both panic in Go and are `.error` here.  Any non-identifier
qualifier hits the source's `panic("findScope TODO")`. -/
def findScope (scope : Scope) : Node → Except Err Scope
  | .ident nm _ =>
    match scope.lookupParent nm with
    | none => .error .nilObj
    | some (.plain _) => .error .notPkgName
    | some (.pkgName _ imported) => .ok imported
  | _ => .error .findScopeTodo

/-- `Obj.Type()`. -/
def Obj.ty : Obj → Ty
  | .plain t => t
  | .pkgName t _ => t

/-- `resolveType` of match.go: resolve a `TypeExpr` (an expression
naming a type) against a scope.  A fixed-length array length that is not
an integer literal hits `panic("TODO")`; an unsupported expression shape
hits `panic("resolveType TODO")`; a failed identifier lookup
dereferences a nil object.  All are `.error` here, surfaced to the
caller, never a boolean or optional negative result. -/
def resolveType (scope : Scope) : Node → Except Err Ty
  | .ident nm _ =>
    match scope.lookupParent nm with
    | none => .error .nilObj
    | some obj => .ok obj.ty
  | .arrayType len elt _ =>
    match resolveType scope elt with
    | .error e => .error e
    | .ok eltTy =>
      match len with
      | none => .ok (.slice eltTy)
      | some l =>
        match l with
        | .basicLit .int value _ => .ok (.array (parseInt0 value) eltTy)
        | _ => .error .todoArrayLen
  | .starExpr x _ =>
    match resolveType scope x with
    | .error e => .error e
    | .ok t => .ok (.ptr t)
  | .selectorExpr x sel _ =>
    match findScope scope x with
    | .error e => .error e
    | .ok scope2 => resolveType scope2 sel
  | _ => .error .resolveTodo

/-! ### Wildcards and the matcher context -/

/-- One `tc` entry of `varInfo.types`: a relation name (`"type"`,
`"asgn"`, `"conv"`; the source's switch silently skips any other string)
and the `TypeExpr` to resolve. -/
structure TypeCheck where
  op : String
  expr : Node

/-- Modelled from the spec: the WildcardSpec table entry `varInfo` built
by the pattern compiler (outside src/): capture name (`"_"` discards),
`multi` flag (`any`), name-constraint predicates (regexes in the
source), type constraints, comparability requirement, and whether the
candidate must be a typed expression. -/
structure VarInfo where
  name : String := ""
  any : Bool := false
  nameRxs : List (String → Bool) := []
  types : List TypeCheck := []
  comp : Bool := false
  needExpr : Bool := false

/-- The matcher state that is fixed during one pipeline stage: the
`matcher` struct's `aggressive` flag and wildcard table, and the
go/types collaborator (`m.Info.TypeOf`, `types.Comparable`,
`types.Identical`, `types.AssignableTo`, `types.ConvertibleTo`, and the
current `m.scope`; no embedded node kind is scope-introducing, so
`m.scope` never changes here). -/
structure Ctx where
  aggressive : Bool := false
  vars : List VarInfo := []
  typeOf : Node → Option Ty := fun _ => none
  tyComparable : Ty → Bool := fun _ => true
  tyIdentical : Ty → Ty → Bool := fun _ _ => false
  tyAssignable : Ty → Ty → Bool := fun _ _ => false
  tyConvertible : Ty → Ty → Bool := fun _ _ => false
  scope : Scope := .mk [] none

/-- Modelled from the spec: the reserved identifier marker the pattern
compiler (outside src/) uses to encode wildcards; match.go itself
hard-codes the same marker in the `"gogrep_body"` identifier of
`matcher.cases`. -/
def wildMark : String := "gogrep_"

/-- Character-list prefix test (a kernel-computable `strings.HasPrefix`). -/
def charsStart : List Char → List Char → Bool
  | [], _ => true
  | _ :: _, [] => false
  | p :: ps, c :: cs => p == c && charsStart ps cs

/-- Decimal digit run, as accepted by `strconv.Atoi`. -/
def decNat : List Char → Nat → Option Nat
  | [], acc => some acc
  | c :: cs, acc =>
    if '0' ≤ c ∧ c ≤ '9' then decNat cs (acc * 10 + (c.toNat - '0'.toNat))
    else none

/-- A kernel-computable `strconv.Atoi` restricted to unsigned decimal
digit runs, which is all the wildcard index encoding produces. -/
def charsToNat : List Char → Option Nat
  | [] => none
  | c :: cs => decNat (c :: cs) 0

/-- Modelled from the spec: an identifier is a wildcard iff its name
carries the reserved marker. -/
def isWildName (s : String) : Bool := charsStart wildMark.data s.data

/-- Modelled from the spec: recover the wildcard table index from an
encoded identifier name; -1 when the name is not an encoded index. -/
def fromWildName (s : String) : Int :=
  if isWildName s then
    match charsToNat (s.data.drop wildMark.data.length) with
    | some n => Int.ofNat n
    | none => -1
  else -1

/-- `fromWildNode` of match.go: the wildcard index of an identifier or of
an expression statement wrapping one; -1 otherwise. -/
def fromWildNode : Node → Int
  | .ident nm _ => fromWildName nm
  | .exprStmt x _ => fromWildNode x
  | _ => -1

/-- Modelled from the spec: `m.info(id)`, the wildcard table lookup; an
out-of-range index yields the zero `varInfo`. -/
def Ctx.info (c : Ctx) (id : Int) : VarInfo :=
  if id < 0 then {} else c.vars.getD id.toNat {}

/-- `bothValid` of match.go on the embedded `Ellipsis` validity bits. -/
def bothValid (p1 p2 : Bool) : Bool := p1 == p2

/-! ### Bindings -/

/-- `m.values`: the capture environment.  A Go map from capture name to
bound node, embedded as an association list where an insert shadows
older entries; `backupMatches` (a full copy of the map) is plain value
copying here. -/
abbrev Values := List (String × Node)

/-- Map lookup `m.values[name]`. -/
def Values.find : Values → String → Option Node
  | [], _ => none
  | (k, n) :: rest, nm => if k == nm then some n else Values.find rest nm

/-- Map insert `m.values[name] = node`. -/
def Values.insert (v : Values) (nm : String) (n : Node) : Values :=
  (nm, n) :: v

/-- The type-constraint loop of the wildcard path of `matcher.node`
(lines 191-201): each constraint resolves its `TypeExpr` against the
current scope (a resolution fault propagates) and fails the match unless
the candidate's type satisfies the relation. -/
def checkTypes (c : Ctx) (t : Ty) : List TypeCheck → Except Err Bool
  | [] => .ok true
  | tc :: rest =>
    match resolveType c.scope tc.expr with
    | .error e => .error e
    | .ok want =>
      if tc.op == "type" && !c.tyIdentical t want then .ok false
      else if tc.op == "asgn" && !c.tyAssignable t want then .ok false
      else if tc.op == "conv" && !c.tyConvertible t want then .ok false
      else checkTypes c t rest

/-! ### The node matcher and the sequence matcher -/

/-- The local variables of the `matcher.nodes` loop, plus the `m.values`
field and the `oldMatches` snapshot variable it checkpoints. -/
structure LoopSt where
  values : Values
  oldMatches : Values
  pStart : Nat
  pEnd : Nat
  i1 : Nat
  i2 : Nat
  next1 : Nat
  next2 : Nat
  wildName : String
  wildStart : Nat

/-- One fuel level of the mutually recursive matcher entry points:
`matcher.node`, `matcher.nodes`, and the latter's loop, loop tail,
epilogue and `wouldMatch` closure.  Each level calls the next-lower
level through a value of this structure, so the embedding is plain
structural recursion on fuel. -/
structure Engine where
  node : Ctx → Values → Node → Node → Except Err (Bool × Values)
  nodes : Ctx → Values → LKind → List Node → LKind → List Node → Bool →
    Except Err (Option Node × Values)
  seqLoop : Ctx → LKind → List Node → LKind → List Node → Bool → LoopSt →
    Except Err (Option Node × Values)
  seqTail : Ctx → LKind → List Node → LKind → List Node → Bool → LoopSt →
    Except Err (Option Node × Values)
  seqFinish : Ctx → LKind → List Node → LoopSt →
    Except Err (Option Node × Values)
  wouldMatch : Ctx → LKind → List Node → LoopSt →
    Except Err (Bool × Values)

/-- The fuel-exhausted engine.  Its `nodes` entry still performs the
source's empty-pattern early return, which precedes the loop and needs
no fuel. -/
def errEngine : Engine where
  node := fun _ _ _ _ => .error .fuel
  nodes := fun _ v _ ns1 k2 ns2 _ =>
    if ns1.length = 0 then
      if ns2.length = 0 then .ok (some (.list k2 ns2), v) else .ok (none, v)
    else .error .fuel
  seqLoop := fun _ _ _ _ _ _ _ => .error .fuel
  seqTail := fun _ _ _ _ _ _ _ => .error .fuel
  seqFinish := fun _ _ _ _ => .error .fuel
  wouldMatch := fun _ _ _ _ => .error .fuel

/-- `matcher.node` of match.go, on the embedded node kinds, with
`m.values` threaded and panics as errors.  The source's nil handling at
the top only concerns optional children, which in the embedded subset
occur only at `ArrayType.Len`, where it is inlined. -/
def nodeStep (prev : Engine) (c : Ctx) (v : Values) (pat cand : Node) :
    Except Err (Bool × Values) :=
  match pat with
  | .ident xname _ =>
    if !isWildName xname then
      -- not a wildcard: the candidate must be the same plain identifier
      .ok ((match cand with
            | .ident yname _ => xname == yname
            | _ => false), v)
    else
      -- (the source's dynamic `node.(ast.Node)` check always holds here)
      let info := c.info (fromWildName xname)
      if info.any then .ok (false, v)
      else if !(info.nameRxs.all fun rx =>
          match cand with
          | .ident yname _ => rx yname
          | _ => false) then .ok (false, v)
      else
        -- once constraints pass: record or compare the binding
        let proceed : Except Err (Bool × Values) :=
          if info.name == "_" then
            -- values are discarded, matches anything
            .ok (true, v)
          else
            match Values.find v info.name with
            | none =>
              -- first occurrence, record value
              .ok (true, Values.insert v info.name cand)
            | some prevBound =>
              -- multiple uses must match
              prev.node c v prevBound cand
        if info.needExpr then
          if !isExprNode cand then .ok (false, v) -- only exprs have types
          else
            match c.typeOf cand with
            | none => .ok (false, v) -- an expr, but no type?
            | some t =>
              if info.comp && !c.tyComparable t then .ok (false, v)
              else
                match checkTypes c t info.types with
                | .error e => .error e
                | .ok tcOk => if !tcOk then .ok (false, v) else proceed
        else proceed
  -- lists (the candidate sides are generated while walking)
  | .list .exprs es1 =>
    match cand with
    | .list .exprs es2 =>
      -- m.exprs(x, y)
      match prev.nodes c v .exprs es1 .exprs es2 false with
      | .error e => .error e
      | .ok (r, v') => .ok (r.isSome, v')
    | _ => .ok (false, v)
  | .list .stmts sts1 =>
    match cand with
    | .list .stmts sts2 =>
      -- m.stmts(x, y)
      match prev.nodes c v .stmts sts1 .stmts sts2 false with
      | .error e => .error e
      | .ok (r, v') => .ok (r.isSome, v')
    | _ => .ok (false, v)
  -- lits
  | .basicLit kind1 value1 _ =>
    .ok ((match cand with
          | .basicLit kind2 value2 _ => kind1 == kind2 && value1 == value2
          | _ => false), v)
  -- types
  | .arrayType len1 elt1 _ =>
    match cand with
    | .arrayType len2 elt2 _ =>
      -- m.node(x.Len, y.Len): the optional-child comparison of the
      -- source's top-of-function nil handling, inlined
      match
        (match len1, len2 with
         | none, none => Except.ok (true, v)
         | some l1, some l2 => prev.node c v l1 l2
         | none, some n2 =>
           .ok (c.aggressive && (match n2 with
                                 | .ident nm _ => nm == "_"
                                 | _ => false), v)
         | some l1, none =>
           .ok (c.aggressive && (match l1 with
                                 | .ident nm _ => nm == "_"
                                 | _ => false), v)) with
      | .error e => .error e
      | .ok (b1, v1) =>
        if !b1 then .ok (false, v1)
        else prev.node c v1 elt1 elt2
    | _ => .ok (false, v)
  -- other exprs
  | .binaryExpr op1 x1 y1 _ =>
    match cand with
    | .binaryExpr op2 x2 y2 _ =>
      if !(op1 == op2) then .ok (false, v)
      else
        match prev.node c v x1 x2 with
        | .error e => .error e
        | .ok (b1, v1) =>
          if !b1 then .ok (false, v1)
          else prev.node c v1 y1 y2
    | _ => .ok (false, v)
  | .callExpr fn1 args1 ell1 _ =>
    match cand with
    | .callExpr fn2 args2 ell2 _ =>
      match prev.node c v fn1 fn2 with
      | .error e => .error e
      | .ok (b1, v1) =>
        if !b1 then .ok (false, v1)
        else
          -- m.exprs(x.Args, y.Args)
          match prev.nodes c v1 .exprs args1 .exprs args2 false with
          | .error e => .error e
          | .ok (r, v2) =>
            if !r.isSome then .ok (false, v2)
            else .ok (bothValid ell1 ell2, v2)
    | _ => .ok (false, v)
  | .starExpr x1 _ =>
    match cand with
    | .starExpr x2 _ => prev.node c v x1 x2
    | _ => .ok (false, v)
  | .selectorExpr x1 sel1 _ =>
    match cand with
    | .selectorExpr x2 sel2 _ =>
      match prev.node c v x1 x2 with
      | .error e => .error e
      | .ok (b1, v1) =>
        if !b1 then .ok (false, v1)
        else prev.node c v1 sel1 sel2
    | _ => .ok (false, v)
  -- stmt bridge nodes
  | .exprStmt x1 _ =>
    match x1 with
    | .ident idname idsp =>
      if isWildName idname then
        -- prefer matching $x as a statement, as it's the parent
        prev.node c v (.ident idname idsp) cand
      else
        match cand with
        | .exprStmt x2 _ => prev.node c v (.ident idname idsp) x2
        | _ => .ok (false, v)
    | _ =>
      match cand with
      | .exprStmt x2 _ => prev.node c v x1 x2
      | _ => .ok (false, v)
  -- stmts
  | .returnStmt results1 _ =>
    match cand with
    | .returnStmt results2 _ =>
      -- m.exprs(x.Results, y.Results)
      match prev.nodes c v .exprs results1 .exprs results2 false with
      | .error e => .error e
      | .ok (r, v') => .ok (r.isSome, v')
    | _ => .ok (false, v)

/-- `matcher.nodes` of match.go: match two node lists, where pattern
elements may be multi-wildcards, with checkpointed backtracking; in
partial mode the pattern may align with a contiguous sub-range.  Returns
the matched sub-list (`nil` in Go is `none`).  The empty-pattern early
return precedes the loop and consumes no fuel.  `k1` is the kind tag of
the pattern list, which the algorithm never consults; `k2` tags the
returned slices of `ns2`. -/
def nodesStep (prev : Engine) (c : Ctx) (v : Values) (k1 : LKind)
    (ns1 : List Node) (k2 : LKind) (ns2 : List Node) (part : Bool) :
    Except Err (Option Node × Values) :=
  if ns1.length = 0 then
    if ns2.length = 0 then .ok (some (.list k2 ns2), v) else .ok (none, v)
  else
    -- backupMatches(); cursor and checkpoint initialisation
    prev.seqLoop c k1 ns1 k2 ns2 part
      { values := v, oldMatches := v, pStart := 0, pEnd := ns2.length,
        i1 := 0, i2 := 0, next1 := 0, next2 := 0,
        wildName := "", wildStart := 0 }

/-- The `for i1 < ns1len || i2 < ns2len` loop of `matcher.nodes`
(lines 546-595), one iteration per fuel level. -/
def seqLoopStep (prev : Engine) (c : Ctx) (k1 : LKind) (ns1 : List Node)
    (k2 : LKind) (ns2 : List Node) (part : Bool) (st : LoopSt) :
    Except Err (Option Node × Values) :=
  if st.i1 < ns1.length ∨ st.i2 < ns2.length then
    if st.i1 < ns1.length then
      let n1 := ns1.getD st.i1 defNode
      let info := c.info (fromWildNode n1)
      if info.any then
        -- a multi-wildcard: open (or keep) its window, set the
        -- resumption checkpoint one candidate ahead, snapshot the
        -- bindings, and advance the pattern cursor only
        let st1 :=
          if info.name != st.wildName then
            { st with wildStart := st.i2, wildName := info.name }
          else st
        prev.seqLoop c k1 ns1 k2 ns2 part
          { st1 with next1 := st1.i1, next2 := st1.i2 + 1,
                     oldMatches := st1.values, i1 := st1.i1 + 1 }
      else
        let st1 :=
          if part && st.i1 == 0 then
            -- let "b; c" match "a; b; c"
            -- (simulates a multi-wildcard at the beginning)
            { st with next2 := st.i2 + 1, pStart := st.i2,
                      oldMatches := st.values }
          else st
        if st1.i2 < ns2.length then
          match prev.wouldMatch c k2 ns2 st1 with
          | .error e => .error e
          | .ok (wb, v1) =>
            let st2 := { st1 with values := v1 }
            if wb then
              match prev.node c st2.values n1 (ns2.getD st2.i2 defNode) with
              | .error e => .error e
              | .ok (nb, v2) =>
                let st3 := { st2 with values := v2 }
                if nb then
                  -- ordinary match
                  prev.seqLoop c k1 ns1 k2 ns2 part
                    { st3 with wildName := "", i1 := st3.i1 + 1,
                               i2 := st3.i2 + 1 }
                else prev.seqTail c k1 ns1 k2 ns2 part st3
            else prev.seqTail c k1 ns1 k2 ns2 part st2
        else prev.seqTail c k1 ns1 k2 ns2 part st1
    else prev.seqTail c k1 ns1 k2 ns2 part st
  else prev.seqFinish c k2 ns2 st

/-- The tail of each loop iteration of `matcher.nodes` (lines 583-594):
accept a partial match at the end of the pattern, otherwise restart from
the saved checkpoint with the bindings restored to the snapshot, and
fail the whole match when no checkpoint exists. -/
def seqTailStep (prev : Engine) (c : Ctx) (k1 : LKind) (ns1 : List Node)
    (k2 : LKind) (ns2 : List Node) (part : Bool) (st : LoopSt) :
    Except Err (Option Node × Values) :=
  if part && st.i1 == ns1.length && st.wildName == "" then
    -- let "b; c" match "b; c; d"
    prev.seqFinish c k2 ns2 { st with pEnd := st.i2 }
  else if 0 < st.next2 ∧ st.next2 ≤ ns2.length ∧
      (st.i1 ≠ st.next1 ∨ st.i2 ≠ st.next2) then
    -- mismatch: restart at the checkpoint, bindings restored verbatim
    prev.seqLoop c k1 ns1 k2 ns2 part
      { st with i1 := st.next1, i2 := st.next2, values := st.oldMatches }
  else .ok (none, st.values)

/-- The epilogue of `matcher.nodes` (lines 596-599): finalize the window
of a still-open multi-wildcard and return the matched slice of `ns2`. -/
def seqFinishStep (prev : Engine) (c : Ctx) (k2 : LKind) (ns2 : List Node)
    (st : LoopSt) : Except Err (Option Node × Values) :=
  match prev.wouldMatch c k2 ns2 st with
  | .error e => .error e
  | .ok (wb, v') =>
    if !wb then .ok (none, v')
    else
      .ok (some (.list k2 ((ns2.drop st.pStart).take (st.pEnd - st.pStart))),
           v')

/-- `wouldMatch` of `matcher.nodes` (lines 532-545): whether the current
multi-wildcard - if any - accepts the candidate window tried on it,
checking consistency with any earlier binding of the same name and
recording the window. -/
def wouldMatchStep (prev : Engine) (c : Ctx) (k2 : LKind) (ns2 : List Node)
    (st : LoopSt) : Except Err (Bool × Values) :=
  if st.wildName == "" ∨ st.wildName == "_" then .ok (true, st.values)
  else
    let lst : Node :=
      .list k2 ((ns2.drop st.wildStart).take (st.i2 - st.wildStart))
    -- check that it matches any nodes found elsewhere
    match Values.find st.values st.wildName with
    | some prevBound =>
      match prev.node c st.values prevBound lst with
      | .error e => .error e
      | .ok (b, v') =>
        if !b then .ok (false, v')
        else .ok (true, Values.insert v' st.wildName lst)
    | none => .ok (true, Values.insert st.values st.wildName lst)

/-- The matcher at a given fuel level. -/
def engine : Nat → Engine
  | 0 => errEngine
  | f + 1 =>
    { node := nodeStep (engine f), nodes := nodesStep (engine f),
      seqLoop := seqLoopStep (engine f), seqTail := seqTailStep (engine f),
      seqFinish := seqFinishStep (engine f),
      wouldMatch := wouldMatchStep (engine f) }

/-- `matcher.node`, at a fuel level. -/
def node (fuel : Nat) (c : Ctx) (v : Values) (pat cand : Node) :
    Except Err (Bool × Values) :=
  (engine fuel).node c v pat cand

/-- `matcher.nodes`, at a fuel level. -/
def nodes (fuel : Nat) (c : Ctx) (v : Values) (k1 : LKind) (ns1 : List Node)
    (k2 : LKind) (ns2 : List Node) (part : Bool) :
    Except Err (Option Node × Values) :=
  (engine fuel).nodes c v k1 ns1 k2 ns2 part

/-- The `matcher.nodes` loop, at a fuel level. -/
def seqLoop (fuel : Nat) (c : Ctx) (k1 : LKind) (ns1 : List Node)
    (k2 : LKind) (ns2 : List Node) (part : Bool) (st : LoopSt) :
    Except Err (Option Node × Values) :=
  (engine fuel).seqLoop c k1 ns1 k2 ns2 part st

/-- The `matcher.nodes` loop tail, at a fuel level. -/
def seqTail (fuel : Nat) (c : Ctx) (k1 : LKind) (ns1 : List Node)
    (k2 : LKind) (ns2 : List Node) (part : Bool) (st : LoopSt) :
    Except Err (Option Node × Values) :=
  (engine fuel).seqTail c k1 ns1 k2 ns2 part st

/-- The `matcher.nodes` epilogue, at a fuel level. -/
def seqFinish (fuel : Nat) (c : Ctx) (k2 : LKind) (ns2 : List Node)
    (st : LoopSt) : Except Err (Option Node × Values) :=
  (engine fuel).seqFinish c k2 ns2 st

/-- `wouldMatch`, at a fuel level. -/
def wouldMatch (fuel : Nat) (c : Ctx) (k2 : LKind) (ns2 : List Node)
    (st : LoopSt) : Except Err (Bool × Values) :=
  (engine fuel).wouldMatch c k2 ns2 st

/-! ### Traversal and collection -/

/-- `matcher.topNode` of match.go: a top-level attempt; two statement
lists are matched with the partial form of the sequence matcher, any
other pair with an ordinary single-node match, returning the matched
node or list. -/
def topNode (fuel : Nat) (c : Ctx) (v : Values) (exprNode nd : Node) :
    Except Err (Option Node × Values) :=
  match exprNode, nd with
  | .list .stmts sts1, .list .stmts sts2 =>
    nodes fuel c v .stmts sts1 .stmts sts2 true
  | _, _ =>
    match node fuel c v exprNode nd with
    | .error e => .error e
    | .ok (b, v') => .ok ((if b then some nd else none), v')

/-- `nodeLists` of match.go restricted to the embedded kinds: the
structurally meaningful non-empty lists embedded in a node (for
`CallExpr` the argument list, for `ReturnStmt` the result list; the
other cases of the source concern node kinds outside the subset). -/
def nodeLists (n : Node) : List Node :=
  match n with
  | .callExpr _ args _ _ => if args.length > 0 then [.list .exprs args] else []
  | .returnStmt results _ => if results.length > 0 then [.list .exprs results] else []
  | _ => []

mutual
/-- The visit order of `ast.Inspect(n, visit)`: pre-order over the real
child nodes.  The list node types are never real children, so they are
leaves here. -/
def preorder : Node → List Node
  | .ident nm sp => [.ident nm sp]
  | .basicLit k vl sp => [.basicLit k vl sp]
  | .binaryExpr op x y sp => .binaryExpr op x y sp :: (preorder x ++ preorder y)
  | .callExpr fn args e sp => .callExpr fn args e sp :: (preorder fn ++ preorderAll args)
  | .selectorExpr x sel sp => .selectorExpr x sel sp :: (preorder x ++ preorder sel)
  | .starExpr x sp => .starExpr x sp :: preorder x
  | .arrayType len elt sp =>
    .arrayType len elt sp ::
      ((match len with
        | none => []
        | some l => preorder l) ++ preorder elt)
  | .exprStmt x sp => .exprStmt x sp :: preorder x
  | .returnStmt results sp => .returnStmt results sp :: preorderAll results
  | .list k es => [.list k es]

/-- Pre-order visit of a run of sibling nodes. -/
def preorderAll : List Node → List Node
  | [] => []
  | x :: xs => preorder x ++ preorderAll xs
end

/-- The `(pattern, node)` pairs on which the `visit` closure of
`walkWithLists` invokes `fn` during one `ast.Inspect` run: each visited
node, each followed by its embedded lists. -/
def inspectCalls (exprNode root : Node) : List (Node × Node) :=
  (preorder root).flatMap fun x => (exprNode, x) :: (nodeLists x).map (exprNode, ·)

/-- `walkWithLists` of match.go: the full sequence of `fn` invocations
for one root.  A root that is itself a list node first gets the two
synthesized adapter views (when the pattern is an expression), then the
pattern against the list itself, then an `ast.Inspect` per element;
any other root is simply inspected. -/
def walkCalls (exprNode root : Node) : List (Node × Node) :=
  match root with
  | .list k es =>
    (if isExprNode exprNode then
      [((.list .exprs [exprNode] : Node), (.list k es : Node)),
       ((.list .stmts [.exprStmt exprNode ⟨exprNode.posOf, exprNode.endOf⟩] : Node),
        (.list k es : Node))]
     else [])
    ++ [(exprNode, (.list k es : Node))]
    ++ es.flatMap fun e => inspectCalls exprNode e
  | _ => inspectCalls exprNode root

/-! ### Pipeline stages -/

/-- One attempt of the `match` closure of `cmdRange`/`cmdFilter`: reset
`m.values` to the empty map and run `topNode`, keeping only the found
node. -/
def attempt (fuel : Nat) (c : Ctx) (p n : Node) : Except Err (Option Node) :=
  match topNode fuel c [] p n with
  | .error e => .error e
  | .ok (found, _) => .ok found

/-- The fold of `cmdFilter`'s inner walk: `any` becomes true once some
visited position matches. -/
def anyWalk (fuel : Nat) (c : Ctx) : List (Node × Node) → Bool → Except Err Bool
  | [], any => .ok any
  | (p, n) :: rest, any =>
    match attempt fuel c p n with
    | .error e => .error e
    | .ok found => anyWalk fuel c rest (any || found.isSome)

/-- `matcher.cmdFilter` of match.go: keep each root node iff the
walk found a match somewhere inside it equals `wantAny`
(`"g"` passes `true`, `"v"` passes `false`). -/
def cmdFilter (fuel : Nat) (c : Ctx) (wantAny : Bool) (pat : Node) :
    List Node → Except Err (List Node)
  | [] => .ok []
  | r :: rs =>
    match anyWalk fuel c (walkCalls pat r) false with
    | .error e => .error e
    | .ok any =>
      match cmdFilter fuel c wantAny pat rs with
      | .error e => .error e
      | .ok rest => .ok (if any == wantAny then r :: rest else rest)

/-- The fold of `cmdRange`'s `match` closure over all visit positions:
append each found node unless its source span was already seen. -/
def rangeGo (fuel : Nat) (c : Ctx) :
    List (Node × Node) → List Node → List Span → Except Err (List Node)
  | [], acc, _ => .ok acc
  | (p, n) :: rest, acc, seen =>
    match attempt fuel c p n with
    | .error e => .error e
    | .ok none => rangeGo fuel c rest acc seen
    | .ok (some found) =>
      if seen.contains (spanOf found) then rangeGo fuel c rest acc seen
      else rangeGo fuel c rest (acc ++ [found]) (spanOf found :: seen)

/-- `matcher.cmdRange` of match.go: collect, over the walks of all
roots, every matched node, deduplicated by source span with the first
occurrence kept in discovery order. -/
def cmdRange (fuel : Nat) (c : Ctx) (pat : Node) (roots : List Node) :
    Except Err (List Node) :=
  rangeGo fuel c (roots.flatMap fun r => walkCalls pat r) [] []

/-- Specification-side companion of `cmdRange` for stating C6: every
successful match in discovery order, with no deduplication. -/
def rangeFound (fuel : Nat) (c : Ctx) :
    List (Node × Node) → Except Err (List Node)
  | [] => .ok []
  | (p, n) :: rest =>
    match attempt fuel c p n with
    | .error e => .error e
    | .ok found =>
      match rangeFound fuel c rest with
      | .error e => .error e
      | .ok fs =>
        .ok (match found with
             | none => fs
             | some fnd => fnd :: fs)

/-- Specification-side: keep the first occurrence of each span, in
order, skipping spans in `seen`. -/
def dedupBySpan : List Node → List Span → List Node
  | [], _ => []
  | f :: fs, seen =>
    if seen.contains (spanOf f) then dedupBySpan fs seen
    else f :: dedupBySpan fs (spanOf f :: seen)

/-! ### Unfolding helpers -/

theorem engine_node (f : Nat) : (engine f).node = node f := rfl

theorem engine_nodes (f : Nat) : (engine f).nodes = nodes f := rfl

theorem engine_seqLoop (f : Nat) : (engine f).seqLoop = seqLoop f := rfl

theorem engine_seqTail (f : Nat) : (engine f).seqTail = seqTail f := rfl

theorem engine_seqFinish (f : Nat) : (engine f).seqFinish = seqFinish f := rfl

theorem engine_wouldMatch (f : Nat) : (engine f).wouldMatch = wouldMatch f := rfl

theorem node_succ (f : Nat) (c : Ctx) (v : Values) (pat cand : Node) :
    node (f + 1) c v pat cand = nodeStep (engine f) c v pat cand := rfl

theorem nodes_succ (f : Nat) (c : Ctx) (v : Values) (k1 : LKind)
    (ns1 : List Node) (k2 : LKind) (ns2 : List Node) (part : Bool) :
    nodes (f + 1) c v k1 ns1 k2 ns2 part =
      nodesStep (engine f) c v k1 ns1 k2 ns2 part := rfl

theorem seqLoop_succ (f : Nat) (c : Ctx) (k1 : LKind) (ns1 : List Node)
    (k2 : LKind) (ns2 : List Node) (part : Bool) (st : LoopSt) :
    seqLoop (f + 1) c k1 ns1 k2 ns2 part st =
      seqLoopStep (engine f) c k1 ns1 k2 ns2 part st := rfl

theorem seqTail_succ (f : Nat) (c : Ctx) (k1 : LKind) (ns1 : List Node)
    (k2 : LKind) (ns2 : List Node) (part : Bool) (st : LoopSt) :
    seqTail (f + 1) c k1 ns1 k2 ns2 part st =
      seqTailStep (engine f) c k1 ns1 k2 ns2 part st := rfl

theorem wouldMatch_succ (f : Nat) (c : Ctx) (k2 : LKind) (ns2 : List Node)
    (st : LoopSt) :
    wouldMatch (f + 1) c k2 ns2 st = wouldMatchStep (engine f) c k2 ns2 st := rfl

/-! ### Concrete programs used by the claims -/

/-- The empty matcher context: no wildcard table, no type information. -/
def ctx0 : Ctx := {}

/-- Context whose wildcard 0 is the single-node capture `$x`. -/
def cX : Ctx := { vars := [{ name := "x" }] }

/-- Context whose wildcard 0 is the multi-node capture `$*a`. -/
def cA : Ctx := { vars := [{ name := "a", any := true }] }

/-- The encoded wildcard identifier for table index 0. -/
def w0 : Node := .ident "gogrep_0" ⟨0, 0⟩

def na : Node := .ident "a" ⟨1, 2⟩
def nb : Node := .ident "b" ⟨3, 4⟩
def nc : Node := .ident "c" ⟨9, 10⟩
def nk : Node := .ident "k" ⟨7, 8⟩
def l1 : Node := .basicLit .int "1" ⟨1, 2⟩
def l2 : Node := .basicLit .int "2" ⟨3, 4⟩
def l3 : Node := .basicLit .int "3" ⟨5, 6⟩

/-- Statements `a; b; c; d` as expression statements over identifiers. -/
def sa : Node := .exprStmt (.ident "a" ⟨0, 1⟩) ⟨0, 1⟩
def sb : Node := .exprStmt (.ident "b" ⟨2, 3⟩) ⟨2, 3⟩
def sc : Node := .exprStmt (.ident "c" ⟨4, 5⟩) ⟨4, 5⟩
def sd : Node := .exprStmt (.ident "d" ⟨6, 7⟩) ⟨6, 7⟩

/-- Candidate `return a`. -/
def retA : Node := .returnStmt [na] ⟨0, 6⟩

/-- A scope declaring the type name `int`. -/
def scI : Scope := .mk [("int", .plain (.named "int"))] none

/-- Context whose wildcard 0 is `$x` constrained by a type relation whose
`TypeExpr` has an unsupported shape (an expression statement), over
candidates that all have type `int`. -/
def cT : Ctx :=
  { vars := [{ name := "x", needExpr := true,
               types := [⟨"asgn", .exprStmt (.ident "z" ⟨0, 1⟩) ⟨0, 1⟩⟩] }],
    typeOf := fun _ => some (.named "int") }

/-- Specification-side classifier: is this node an integer literal
(`*ast.BasicLit` with `Kind == token.INT`)? -/
def isIntLit : Node → Bool
  | .basicLit .int _ _ => true
  | _ => false

/-- Specification-side classifier: the node shapes `resolveType`
supports; everything else hits its default panic. -/
def resolveSupported : Node → Bool
  | .ident _ _ => true
  | .arrayType _ _ _ => true
  | .starExpr _ _ => true
  | .selectorExpr _ _ _ => true
  | _ => false

/-! ## The claims -/

/-- C1, corrected.  For `matcher.nodes`: an empty pattern list against an
empty candidate list succeeds; an empty pattern list against a non-empty
candidate list fails - and it fails for both values of `partial`,
because the empty-pattern early return precedes all partial-mode logic
(the claim asserted success with the candidate consumed as leading slack
when partial is true). -/
theorem claim_C1 (fuel : Nat) (c : Ctx) (v : Values) (k1 k2 : LKind)
    (cs : List Node) (part : Bool) :
    nodes fuel c v k1 [] k2 cs part =
      if cs.isEmpty then .ok (some (.list k2 cs), v) else .ok (none, v) := by
  cases fuel <;> cases cs <;> rfl

/-- C1, counterexample to the claim as stated: the empty pattern list
against the non-empty statement list `[a]` in partial mode does not
succeed; `matcher.nodes` returns nil. -/
theorem claim_C1_cex :
    nodes 1 ctx0 [] .stmts [] .stmts [sa] true = .ok (none, []) := rfl

/-- C1, witness for the amended claim at concrete inputs: both empty
lists match (the result is the empty candidate list itself); empty
pattern against `[a]` fails non-partially and also fails partially. -/
theorem claim_C1_witness :
    nodes 1 ctx0 [] .stmts [] .stmts [] false
        = .ok (some (.list .stmts []), [])
      ∧ nodes 1 ctx0 [] .stmts [] .stmts [sa] false = .ok (none, [])
      ∧ nodes 1 ctx0 [] .stmts [] .stmts [sa] true = .ok (none, []) :=
  ⟨claim_C1 1 ctx0 [] .stmts .stmts [] false,
   claim_C1 1 ctx0 [] .stmts .stmts [sa] false,
   claim_C1 1 ctx0 [] .stmts .stmts [sa] true⟩

/-- C3: multi-wildcard absorption with backtracking.  The pattern list
`$*a, 3` (the literal `3` playing the part of the final element)
matched non-partially against the candidate list `[1, 2, 3]` succeeds
returning the whole list, with `a` bound to the sub-list `[1, 2]`; and
matched against the candidate list `[3]` it succeeds with `a` bound to
the empty list. -/
theorem claim_C3 :
    nodes 60 cA [] .exprs [w0, l3] .exprs [l1, l2, l3] false
        = .ok (some (.list .exprs [l1, l2, l3]),
               [("a", .list .exprs [l1, l2])])
      ∧ nodes 60 cA [] .exprs [w0, l3] .exprs [l3] false
        = .ok (some (.list .exprs [l3]), [("a", .list .exprs [])]) :=
  ⟨rfl, rfl⟩

/-- C4: partial sequence matching.  The two-statement pattern `b; c`
matched by `topNode` (which uses the partial form of the sequence
matcher on statement lists) against the statement list `a; b; c; d`
succeeds and returns exactly the contiguous sub-list `b; c` - the
leading `a` is skipped and the trailing `d` is left unconsumed. -/
theorem claim_C4 :
    topNode 60 ctx0 [] (.list .stmts [sb, sc]) (.list .stmts [sa, sb, sc, sd])
      = .ok (some (.list .stmts [sb, sc]), []) := rfl

/-- C9: an expression-statement pattern whose expression is a wildcard
identifier is matched by redirecting the wildcard at the whole candidate
node (so it can match and capture any statement kind); an
expression-statement pattern with a non-wildcard head still requires the
candidate to be an expression statement (any other candidate kind
fails); concretely, the statement pattern `$x` matches the candidate
`return a` and captures the whole return statement under `x`, while the
non-wildcard expression statement `f` does not match `return a`. -/
theorem claim_C9 :
    (∀ (f : Nat) (c : Ctx) (v : Values) (nm : String) (idsp stsp : Span)
       (cand : Node),
      isWildName nm = true →
      node (f + 1) c v (.exprStmt (.ident nm idsp) stsp) cand
        = node f c v (.ident nm idsp) cand)
    ∧ (∀ (f : Nat) (c : Ctx) (v : Values) (x1 : Node) (stsp : Span)
        (cand : Node),
      (∀ nm sp', x1 = .ident nm sp' → isWildName nm = false) →
      (∀ x2 sp2, cand ≠ .exprStmt x2 sp2) →
      node (f + 1) c v (.exprStmt x1 stsp) cand = .ok (false, v))
    ∧ node 60 cX [] (.exprStmt w0 ⟨0, 0⟩) retA = .ok (true, [("x", retA)])
    ∧ node 60 cX [] (.exprStmt (.ident "f" ⟨0, 1⟩) ⟨0, 1⟩) retA
        = .ok (false, []) := by
  refine ⟨?_, ?_, rfl, rfl⟩
  · intro f c v nm idsp stsp cand h
    rw [node_succ]
    simp [nodeStep, h, engine_node]
  · intro f c v x1 stsp cand h1 h2
    rw [node_succ]
    cases cand <;>
      first
        | (exact absurd rfl (h2 _ _))
        | (cases x1 <;>
            first
              | rfl
              | (rename_i nm1 sp1; simp [nodeStep, h1 nm1 sp1 rfl]))

/-- C9, witness: the redirect equation instantiated at the statement
pattern `$x` against `return a`, and the non-wildcard part instantiated
at the expression statement `a` against the candidate literal `1`. -/
theorem claim_C9_witness :
    node 6 cX [] (.exprStmt w0 ⟨0, 0⟩) retA = node 5 cX [] w0 retA
      ∧ node 1 ctx0 [] (.exprStmt na ⟨0, 0⟩) l1 = .ok (false, []) :=
  ⟨claim_C9.1 5 cX [] "gogrep_0" ⟨0, 0⟩ ⟨0, 0⟩ retA rfl,
   claim_C9.2.1 0 ctx0 [] na ⟨0, 0⟩ l1
     (fun _ _ h => by cases h; rfl)
     (fun _ _ h => Node.noConfusion h)⟩

/-- C10: a call-expression pattern matches a candidate call only if the
two calls agree on the presence of the trailing variadic marker: a
successful match forces the two `Ellipsis` validity bits to be equal,
and concretely `f()` does not match `f(...)` even though function and
argument list agree. -/
theorem claim_C10 :
    (∀ (f : Nat) (c : Ctx) (v v' : Values) (fn1 : Node) (args1 : List Node)
       (ell1 : Bool) (sp1 : Span) (fn2 : Node) (args2 : List Node)
       (ell2 : Bool) (sp2 : Span),
      node (f + 1) c v (.callExpr fn1 args1 ell1 sp1)
          (.callExpr fn2 args2 ell2 sp2) = .ok (true, v') →
      ell1 = ell2)
    ∧ node 60 ctx0 [] (.callExpr (.ident "f" ⟨0, 1⟩) [] false ⟨0, 3⟩)
        (.callExpr (.ident "f" ⟨0, 1⟩) [] true ⟨0, 6⟩) = .ok (false, []) := by
  refine ⟨?_, rfl⟩
  intro f c v v' fn1 args1 ell1 sp1 fn2 args2 ell2 sp2 h
  rw [node_succ] at h
  simp only [nodeStep] at h
  cases h1 : (engine f).node c v fn1 fn2 with
  | error e => rw [h1] at h; simp at h
  | ok p =>
    rw [h1] at h
    obtain ⟨b1, v1⟩ := p
    by_cases hb : b1 = true
    · simp only [hb, Bool.not_true, Bool.false_eq_true, if_false] at h
      cases h2 : (engine f).nodes c v1 .exprs args1 .exprs args2 false with
      | error e => rw [h2] at h; simp at h
      | ok q =>
        rw [h2] at h
        obtain ⟨r, v2⟩ := q
        cases r with
        | none => simp at h
        | some fnd =>
          simp only [Option.isSome_some, Bool.not_true, Bool.false_eq_true,
            if_false] at h
          have hbv : bothValid ell1 ell2 = true := by
            have h' := h
            simp at h'
            exact h'.1
          simpa [bothValid] using hbv
    · simp [hb] at h

/-- C10, witness: the agreement implication instantiated at the
matching pair `f()` against `f()`, whose ellipsis bits are both
invalid. -/
theorem claim_C10_witness : (false : Bool) = (false : Bool) :=
  claim_C10.1 1 ctx0 [] [] (.ident "f" ⟨0, 1⟩) [] false ⟨0, 3⟩
    (.ident "f" ⟨0, 1⟩) [] false ⟨0, 3⟩ rfl

/-- C8: type-constraint resolution faults are fatal, not match
failures.  (i) A fixed-length array `TypeExpr` whose length is not an
integer literal makes `resolveType` abort with the array-length panic
(whenever the element type itself resolves).  (ii) Any `TypeExpr` shape
outside the supported ones makes `resolveType` abort with its
unsupported-shape panic.  (iii) Such an abort inside a wildcard's type
constraint surfaces through `matcher.node` as the same error - the
matcher never converts it into a boolean no-match result. -/
theorem claim_C8 :
    (∀ (s : Scope) (l e : Node) (sp : Span) (t : Ty),
      isIntLit l = false → resolveType s e = .ok t →
      resolveType s (.arrayType (some l) e sp) = .error .todoArrayLen)
    ∧ (∀ (s : Scope) (n : Node), resolveSupported n = false →
      resolveType s n = .error .resolveTodo)
    ∧ (∀ (f : Nat) (c : Ctx) (v : Values) (nm : String) (sp : Span)
        (cand : Node) (t : Ty) (op : String) (texpr : Node) (err : Err),
      isWildName nm = true →
      (c.info (fromWildName nm)).any = false →
      (c.info (fromWildName nm)).nameRxs = [] →
      (c.info (fromWildName nm)).needExpr = true →
      (c.info (fromWildName nm)).comp = false →
      (c.info (fromWildName nm)).types = [⟨op, texpr⟩] →
      isExprNode cand = true →
      c.typeOf cand = some t →
      resolveType c.scope texpr = .error err →
      node (f + 1) c v (.ident nm sp) cand = .error err) := by
  refine ⟨?_, ?_, ?_⟩
  · intro s l e sp t hl he
    simp only [resolveType, he]
    cases l <;> simp_all [isIntLit]
    rename_i k _ _
    cases k <;> simp_all
  · intro s n h
    cases n <;> simp_all [resolveSupported, resolveType]
  · intro f c v nm sp cand t op texpr err hW hAny hRxs hNeed hComp hTys hExpr
      hTyOf hRes
    rw [node_succ]
    simp [nodeStep, hW, hAny, hRxs, hNeed, hComp, hTys, hExpr, hTyOf,
      checkTypes, hRes]

/-- C8, witness: the three parts at concrete inputs - the array type
`[n]int` (length a plain identifier) aborts; the literal `1` as a
`TypeExpr` aborts; and the wildcard `$x` with an unsupported constraint
`TypeExpr` propagates that abort out of `matcher.node` when matched
against the identifier `a`. -/
theorem claim_C8_witness :
    resolveType scI (.arrayType (some (.ident "n" ⟨0, 1⟩)) (.ident "int" ⟨2, 5⟩) ⟨0, 5⟩)
        = .error .todoArrayLen
      ∧ resolveType scI l1 = .error .resolveTodo
      ∧ node 1 cT [] w0 na = .error .resolveTodo :=
  ⟨claim_C8.1 scI (.ident "n" ⟨0, 1⟩) (.ident "int" ⟨2, 5⟩) ⟨0, 5⟩
      (.named "int") rfl rfl,
   claim_C8.2.1 scI l1 rfl,
   claim_C8.2.2 0 cT [] "gogrep_0" ⟨0, 0⟩ na (.named "int") "asgn"
     (.exprStmt (.ident "z" ⟨0, 1⟩) ⟨0, 1⟩) .resolveTodo
     rfl rfl rfl rfl rfl rfl rfl rfl rfl⟩

/-- C2: repeated-capture consistency.  (i) In `matcher.node`, a named
single-node wildcard that is already bound succeeds only by structurally
matching the candidate against the previously bound node (the source's
"multiple uses must match" recursion).  (ii) In the sequence matcher's
`wouldMatch`, a multi-wildcard window whose name is already bound is
rejected whenever the window does not structurally match the previous
binding.  (iii) Concretely, `$x + $x` matches `a + a` and not `a + b`;
and the pattern list `$*a, k, $*a` matches `[b, k, b]` (both windows
`[b]`) and not `[b, k, c]`. -/
theorem claim_C2 :
    (∀ (f : Nat) (c : Ctx) (v : Values) (nm : String) (sp : Span)
       (cand prevBound : Node),
      isWildName nm = true →
      (c.info (fromWildName nm)).any = false →
      (c.info (fromWildName nm)).nameRxs = [] →
      (c.info (fromWildName nm)).needExpr = false →
      (c.info (fromWildName nm)).name ≠ "_" →
      Values.find v (c.info (fromWildName nm)).name = some prevBound →
      node (f + 1) c v (.ident nm sp) cand = node f c v prevBound cand)
    ∧ (∀ (f : Nat) (c : Ctx) (k2 : LKind) (ns2 : List Node) (st : LoopSt)
        (prevBound : Node) (v' : Values),
      st.wildName ≠ "" → st.wildName ≠ "_" →
      Values.find st.values st.wildName = some prevBound →
      node f c st.values prevBound
          (.list k2 ((ns2.drop st.wildStart).take (st.i2 - st.wildStart)))
        = .ok (false, v') →
      wouldMatch (f + 1) c k2 ns2 st = .ok (false, v'))
    ∧ node 60 cX [] (.binaryExpr "+" w0 w0 ⟨0, 0⟩) (.binaryExpr "+" na na ⟨1, 4⟩)
        = .ok (true, [("x", na)])
    ∧ node 60 cX [] (.binaryExpr "+" w0 w0 ⟨0, 0⟩) (.binaryExpr "+" na nb ⟨1, 4⟩)
        = .ok (false, [("x", na)])
    ∧ nodes 60 cA [] .exprs [w0, nk, w0] .exprs [nb, nk, nb] false
        = .ok (some (.list .exprs [nb, nk, nb]),
               [("a", .list .exprs [nb]), ("a", .list .exprs [nb])])
    ∧ nodes 60 cA [] .exprs [w0, nk, w0] .exprs [nb, nk, nc] false
        = .ok (none, [("a", .list .exprs [nb])]) := by
  refine ⟨?_, ?_, rfl, rfl, rfl, rfl⟩
  · intro f c v nm sp cand prevBound hW hAny hRxs hNeed hNe hFind
    rw [node_succ]
    simp [nodeStep, hW, hAny, hRxs, hNeed, hFind, engine_node,
      beq_eq_false_iff_ne.mpr hNe]
  · intro f c k2 ns2 st prevBound v' h1 h2 hFind hNode
    rw [wouldMatch_succ]
    simp only [wouldMatchStep]
    rw [if_neg]
    · simp [hFind, engine_node, hNode]
    · rintro (hh | hh)
      · exact h1 (by simpa using hh)
      · exact h2 (by simpa using hh)

/-- C2, witness: the bound-wildcard recursion instantiated at `$x`
already bound to `a` against candidate `b`, and the `wouldMatch`
rejection instantiated at the window `[c]` of the multi-wildcard `a`
already bound to `[b]`. -/
theorem claim_C2_witness :
    node 13 cX [("x", na)] w0 nb = node 12 cX [("x", na)] na nb
      ∧ wouldMatch 13 cA .exprs [nc]
          { values := [("a", .list .exprs [nb])], oldMatches := [],
            pStart := 0, pEnd := 1, i1 := 1, i2 := 1, next1 := 0, next2 := 1,
            wildName := "a", wildStart := 0 }
          = .ok (false, [("a", .list .exprs [nb])]) :=
  ⟨claim_C2.1 12 cX [("x", na)] "gogrep_0" ⟨0, 0⟩ nb na
     rfl rfl rfl rfl (by decide) rfl,
   claim_C2.2.1 12 cA .exprs [nc]
     { values := [("a", .list .exprs [nb])], oldMatches := [],
       pStart := 0, pEnd := 1, i1 := 1, i2 := 1, next1 := 0, next2 := 1,
       wildName := "a", wildStart := 0 }
     (.list .exprs [nb]) [("a", .list .exprs [nb])]
     (by decide) (by decide) rfl rfl⟩

/-- C7: backtracking atomicity of the bindings in the sequence matcher.
(i) At a multi-wildcard pattern element, one loop step snapshots the
whole current capture mapping into `oldMatches` (a full copy of
`m.values`, taken before any speculative extension), establishes the
resumption checkpoint one candidate ahead (`next2 = i2 + 1`), and
advances only the pattern cursor.  (ii) At an ordinary pattern element
whose match attempt fails (after `wouldMatch` accepted the window with
speculative bindings `v1` and the node match failed leaving speculative
bindings `v2`): when a checkpoint exists (`0 < next2 ≤ len`, and it
differs from the current position) the loop restarts at the checkpoint
with the bindings restored verbatim to the snapshot - the speculative
`v1`/`v2` are discarded; when no checkpoint exists the whole match
fails. -/
theorem claim_C7 :
    (∀ (f : Nat) (c : Ctx) (k1 : LKind) (ns1 : List Node) (k2 : LKind)
       (ns2 : List Node) (part : Bool) (st : LoopSt) (info : VarInfo),
      c.info (fromWildNode (ns1.getD st.i1 defNode)) = info →
      st.i1 < ns1.length →
      info.any = true →
      seqLoop (f + 1) c k1 ns1 k2 ns2 part st
        = seqLoop f c k1 ns1 k2 ns2 part
            { st with
                wildStart := if info.name != st.wildName then st.i2
                             else st.wildStart,
                wildName := if info.name != st.wildName then info.name
                            else st.wildName,
                next1 := st.i1, next2 := st.i2 + 1,
                oldMatches := st.values, i1 := st.i1 + 1 })
    ∧ (∀ (f : Nat) (c : Ctx) (k1 : LKind) (ns1 : List Node) (k2 : LKind)
        (ns2 : List Node) (part : Bool) (st : LoopSt) (v1 v2 : Values),
      st.i1 < ns1.length →
      (c.info (fromWildNode (ns1.getD st.i1 defNode))).any = false →
      ¬(part = true ∧ st.i1 = 0) →
      st.i2 < ns2.length →
      wouldMatch (f + 1) c k2 ns2 st = .ok (true, v1) →
      node (f + 1) c v1 (ns1.getD st.i1 defNode) (ns2.getD st.i2 defNode)
        = .ok (false, v2) →
      seqLoop (f + 2) c k1 ns1 k2 ns2 part st
        = if 0 < st.next2 ∧ st.next2 ≤ ns2.length ∧
              (st.i1 ≠ st.next1 ∨ st.i2 ≠ st.next2)
          then seqLoop f c k1 ns1 k2 ns2 part
                 { st with i1 := st.next1, i2 := st.next2,
                           values := st.oldMatches }
          else .ok (none, v2)) := by
  constructor
  · intro f c k1 ns1 k2 ns2 part st info hinfo hlt hany
    rw [seqLoop_succ]
    simp only [seqLoopStep, hinfo, hany, engine_seqLoop]
    rw [if_pos (Or.inl hlt), if_pos hlt]
    simp only [if_true]
    by_cases hn : (info.name != st.wildName) = true <;> simp [hn]
  · intro f c k1 ns1 k2 ns2 part st v1 v2 hlt hany hp hlt2 hwm hnode
    have hp' : (part && st.i1 == 0) = false := by
      cases part
      · rfl
      · simp only [Bool.true_and]
        exact beq_eq_false_iff_ne.mpr fun h => hp ⟨rfl, h⟩
    have hne : (st.i1 == ns1.length) = false :=
      beq_eq_false_iff_ne.mpr (Nat.ne_of_lt hlt)
    rw [show f + 2 = (f + 1) + 1 from rfl, seqLoop_succ]
    simp only [seqLoopStep, hany, Bool.false_eq_true, if_false, hp',
      engine_wouldMatch, engine_node, engine_seqTail]
    rw [if_pos (Or.inl hlt), if_pos hlt, if_pos hlt2]
    rw [hwm]
    simp only [if_true]
    rw [hnode]
    simp only [Bool.false_eq_true, if_false, seqTail_succ, seqTailStep,
      engine_seqLoop, hne, Bool.and_false, Bool.false_and,
      Bool.false_eq_true, if_false]

/-- C7, witness: (i) instantiated at the multi-wildcard pattern `[$*a]`
in a state whose bindings already hold `q`: the snapshot `oldMatches`
becomes that full mapping; (ii) instantiated at the non-wildcard
pattern `[3]` against `[1]` from the initial state, where no checkpoint
exists (`next2 = 0`), so the whole match fails. -/
theorem claim_C7_witness :
    seqLoop 2 cA .exprs [w0] .exprs [l1] false
        { values := [("q", na)], oldMatches := [], pStart := 0, pEnd := 1,
          i1 := 0, i2 := 0, next1 := 0, next2 := 0, wildName := "",
          wildStart := 0 }
      = seqLoop 1 cA .exprs [w0] .exprs [l1] false
          { values := [("q", na)], oldMatches := [("q", na)], pStart := 0,
            pEnd := 1, i1 := 1, i2 := 0, next1 := 0, next2 := 1,
            wildName := "a", wildStart := 0 }
    ∧ seqLoop 3 ctx0 .exprs [l3] .exprs [l1] false
        { values := [], oldMatches := [], pStart := 0, pEnd := 1,
          i1 := 0, i2 := 0, next1 := 0, next2 := 0, wildName := "",
          wildStart := 0 }
      = .ok (none, []) := by
  constructor
  · have h := claim_C7.1 1 cA .exprs [w0] .exprs [l1] false
      { values := [("q", na)], oldMatches := [], pStart := 0, pEnd := 1,
        i1 := 0, i2 := 0, next1 := 0, next2 := 0, wildName := "",
        wildStart := 0 }
      { name := "a", any := true } rfl (by decide) rfl
    simpa using h
  · have h := claim_C7.2 1 ctx0 .exprs [l3] .exprs [l1] false
      { values := [], oldMatches := [], pStart := 0, pEnd := 1,
        i1 := 0, i2 := 0, next1 := 0, next2 := 0, wildName := "",
        wildStart := 0 }
      [] [] (by decide) rfl (by simp) (by decide) rfl rfl
    simpa using h

/-- The keep and drop stages run the same per-root walks; whenever both
succeed, they partition the input according to the per-root
matched-anywhere booleans. -/
theorem cmdFilter_polarity (fuel : Nat) (c : Ctx) (pat : Node) :
    ∀ (roots ks ds : List Node),
      cmdFilter fuel c true pat roots = .ok ks →
      cmdFilter fuel c false pat roots = .ok ds →
      List.Sublist ks roots ∧ List.Sublist ds roots
        ∧ (∀ p : Node → Bool, ks.countP p + ds.countP p = roots.countP p)
        ∧ (∀ n, n ∈ roots ↔ n ∈ ks ∨ n ∈ ds)
        ∧ (∀ n ∈ ks, anyWalk fuel c (walkCalls pat n) false = .ok true)
        ∧ (∀ n ∈ ds, anyWalk fuel c (walkCalls pat n) false = .ok false) := by
  intro roots
  induction roots with
  | nil =>
    intro ks ds hk hd
    simp only [cmdFilter, Except.ok.injEq] at hk hd
    subst hk; subst hd
    simp
  | cons r rs ih =>
    intro ks ds hk hd
    simp only [cmdFilter] at hk hd
    cases ha : anyWalk fuel c (walkCalls pat r) false with
    | error e => rw [ha] at hk; simp at hk
    | ok a =>
      rw [ha] at hk hd
      cases hk1 : cmdFilter fuel c true pat rs with
      | error e => rw [hk1] at hk; simp at hk
      | ok ks' =>
        cases hd1 : cmdFilter fuel c false pat rs with
        | error e => rw [hd1] at hd; simp at hd
        | ok ds' =>
          rw [hk1] at hk
          rw [hd1] at hd
          simp only [Except.ok.injEq] at hk hd
          obtain ⟨ih1, ih2, ih3, ih4, ih5, ih6⟩ := ih ks' ds' hk1 hd1
          cases a with
          | false =>
            simp only [show ((false == true) = false) from rfl,
              show ((false == false) = true) from rfl, Bool.false_eq_true,
              if_false, if_true] at hk hd
            subst hk; subst hd
            refine ⟨ih1.cons r, ih2.cons₂ r, ?_, ?_, ih5, ?_⟩
            · intro p
              simp only [List.countP_cons, ← ih3 p]
              omega
            · intro n
              simp only [List.mem_cons, ih4 n]
              tauto
            · intro n hn
              rcases List.mem_cons.mp hn with rfl | hn'
              · exact ha
              · exact ih6 n hn'
          | true =>
            simp only [show ((true == true) = true) from rfl,
              show ((true == false) = false) from rfl, Bool.false_eq_true,
              if_false, if_true] at hk hd
            subst hk; subst hd
            refine ⟨ih1.cons₂ r, ih2.cons r, ?_, ?_, ?_, ih6⟩
            · intro p
              simp only [List.countP_cons, ← ih3 p]
              omega
            · intro n
              simp only [List.mem_cons, ih4 n]
              tauto
            · intro n hn
              rcases List.mem_cons.mp hn with rfl | hn'
              · exact ha
              · exact ih5 n hn'

/-- C5: filter polarity.  For every fuel level, pattern and candidate
list on which both stages succeed, keep-if-matches and drop-if-matches
produce complementary sublists of the input: both preserve the input's
order (they are sublists) and multiplicity (their counts under any
predicate add up to the input's), every input occurs in exactly their
union, and a candidate is kept by a stage exactly when its
matched-anywhere boolean equals that stage's `wantAny`. -/
theorem claim_C5 (fuel : Nat) (c : Ctx) (pat : Node) (roots ks ds : List Node)
    (hk : cmdFilter fuel c true pat roots = .ok ks)
    (hd : cmdFilter fuel c false pat roots = .ok ds) :
    List.Sublist ks roots ∧ List.Sublist ds roots
      ∧ (∀ p : Node → Bool, ks.countP p + ds.countP p = roots.countP p)
      ∧ (∀ n, n ∈ roots ↔ n ∈ ks ∨ n ∈ ds)
      ∧ (∀ n ∈ ks, anyWalk fuel c (walkCalls pat n) false = .ok true)
      ∧ (∀ n ∈ ds, anyWalk fuel c (walkCalls pat n) false = .ok false) :=
  cmdFilter_polarity fuel c pat roots ks ds hk hd

/-- C5, witness: over the roots `b + 1` (which contains the identifier
`b`) and the literal `2` (which does not), keeping with pattern `b`
yields the first root and dropping yields the second; the instantiated
conclusions include the two sublist facts and a concrete count
equation. -/
theorem claim_C5_witness :
    List.Sublist [.binaryExpr "+" nb l1 ⟨0, 9⟩] [.binaryExpr "+" nb l1 ⟨0, 9⟩, l2]
      ∧ List.Sublist [l2] [.binaryExpr "+" nb l1 ⟨0, 9⟩, l2]
      ∧ ([(.binaryExpr "+" nb l1 ⟨0, 9⟩ : Node)].countP isExprNode
          + [l2].countP isExprNode
          = [(.binaryExpr "+" nb l1 ⟨0, 9⟩ : Node), l2].countP isExprNode) := by
  have h := claim_C5 60 ctx0 (.ident "b" ⟨0, 0⟩)
    [.binaryExpr "+" nb l1 ⟨0, 9⟩, l2] [.binaryExpr "+" nb l1 ⟨0, 9⟩] [l2]
    rfl rfl
  exact ⟨h.1, h.2.1, h.2.2.1 isExprNode⟩

/-- The fused fold of `cmdRange` (matches plus seen-set) computes the
first-occurrence span deduplication of the raw discovery sequence. -/
theorem rangeGo_spec (fuel : Nat) (c : Ctx) :
    ∀ (calls : List (Node × Node)) (acc : List Node) (seen : List Span)
      (out fs : List Node),
      rangeGo fuel c calls acc seen = .ok out →
      rangeFound fuel c calls = .ok fs →
      out = acc ++ dedupBySpan fs seen := by
  intro calls
  induction calls with
  | nil =>
    intro acc seen out fs h1 h2
    simp only [rangeGo, Except.ok.injEq] at h1
    simp only [rangeFound, Except.ok.injEq] at h2
    subst h1; subst h2
    simp [dedupBySpan]
  | cons pn rest ih =>
    obtain ⟨p, n⟩ := pn
    intro acc seen out fs h1 h2
    simp only [rangeGo] at h1
    simp only [rangeFound] at h2
    cases hat : attempt fuel c p n with
    | error e => rw [hat] at h1; simp at h1
    | ok found =>
      rw [hat] at h1 h2
      cases hrf : rangeFound fuel c rest with
      | error e => rw [hrf] at h2; simp at h2
      | ok fs' =>
        rw [hrf] at h2
        simp only [Except.ok.injEq] at h2
        subst h2
        cases found with
        | none => exact ih acc seen out fs' h1 hrf
        | some fnd =>
          by_cases hseen : spanOf fnd ∈ seen
          · have hc : seen.contains (spanOf fnd) = true := by simpa using hseen
            simp only [hc, if_true] at h1
            simpa [dedupBySpan, hseen] using ih acc seen out fs' h1 hrf
          · have hc : seen.contains (spanOf fnd) = false := by simpa using hseen
            simp only [hc, Bool.false_eq_true, if_false] at h1
            have := ih (acc ++ [fnd]) (spanOf fnd :: seen) out fs' h1 hrf
            simpa [dedupBySpan, hseen, List.append_assoc] using this

/-- First-occurrence span deduplication produces pairwise distinct
spans, drawn from outside the already-seen set. -/
theorem dedupBySpan_nodup :
    ∀ (fs : List Node) (seen : List Span),
      ((dedupBySpan fs seen).map spanOf).Nodup
        ∧ ∀ n ∈ dedupBySpan fs seen, spanOf n ∉ seen := by
  intro fs
  induction fs with
  | nil => intro seen; simp [dedupBySpan]
  | cons f fs ih =>
    intro seen
    by_cases h : spanOf f ∈ seen
    · have hd : dedupBySpan (f :: fs) seen = dedupBySpan fs seen := by
        simp [dedupBySpan, h]
      rw [hd]
      exact ih seen
    · have hd : dedupBySpan (f :: fs) seen
          = f :: dedupBySpan fs (spanOf f :: seen) := by
        simp [dedupBySpan, h]
      rw [hd]
      obtain ⟨ihn, ihs⟩ := ih (spanOf f :: seen)
      constructor
      · simp only [List.map_cons, List.nodup_cons]
        refine ⟨?_, ihn⟩
        intro hmem
        obtain ⟨x, hx, hxeq⟩ := List.mem_map.mp hmem
        exact ihs x hx (by rw [hxeq]; exact List.mem_cons_self _ _)
      · intro n hn
        rcases List.mem_cons.mp hn with rfl | hn'
        · exact h
        · intro hmem
          exact ihs n hn' (List.mem_cons_of_mem _ hmem)

/-- C6: range-stage deduplication.  Whenever `cmdRange` succeeds on some
roots and `rangeFound` lists the raw successful matches of the same
walk in discovery order, the collected output is exactly the
first-occurrence-by-span deduplication of that discovery sequence, and
the output's spans are pairwise distinct - each matched span is
recorded at most once, first occurrence kept, discovery order
preserved. -/
theorem claim_C6 (fuel : Nat) (c : Ctx) (pat : Node) (roots out fs : List Node)
    (h1 : cmdRange fuel c pat roots = .ok out)
    (h2 : rangeFound fuel c (roots.flatMap fun r => walkCalls pat r) = .ok fs) :
    out = dedupBySpan fs [] ∧ (out.map spanOf).Nodup := by
  have ho : out = [] ++ dedupBySpan fs [] :=
    rangeGo_spec fuel c (roots.flatMap fun r => walkCalls pat r) [] [] out fs
      h1 h2
  simp only [List.nil_append] at ho
  subst ho
  exact ⟨rfl, (dedupBySpan_nodup fs []).1⟩

/-- C6, witness: the pattern `$x` over the root `return a` matches the
return statement, the synthesized one-element expression list view, and
the element `a` itself; the last two share one source span, so the raw
discovery sequence has three entries while the collected output keeps
that span once, with pairwise distinct output spans. -/
theorem claim_C6_witness :
    [retA, .list .exprs [na]]
        = dedupBySpan [retA, .list .exprs [na], na] []
      ∧ (([retA, (.list .exprs [na] : Node)].map spanOf)).Nodup :=
  claim_C6 60 cX w0 [retA] [retA, .list .exprs [na]]
    [retA, .list .exprs [na], na] rfl rfl

end Gogrep
